import Mathlib

/-!
Verification development for the Ramanujan-formulas evaluation server.

The embedded program is the Evaluation and Ranking Engine of the repository:

* the expression evaluator of the MathEvaluator class in src/server.js
  (lowercasing, mpmath-prefix cleanup, whole-word constant substitution,
  then arithmetic evaluation through the mathjs library and conversion of the
  result into a Decimal value);
* the quality scorer (calculateApproximationQuality, calculateComplexity,
  calculateAccuracy, calculateOverallScore in src/server.js);
* the batch driver (parseApproximation and parseBatch of parser.js, and the
  evaluate-batch route of src/server.js that evaluates, scores, and sorts).

Modelling conventions:

* Decimal.js values are modelled by the type Dec below: exact rationals
  extended with positive and negative infinity and NaN.  Decimal.js computes
  with 60 significant digits (precision 50 + 10 guard digits, set in the
  MathEvaluator constructor); that rounding is modelled as exact rational
  arithmetic.  Division by zero returns signed infinity (NaN for 0/0) and
  does not throw, exactly as Decimal.js does.
* JavaScript strings are modelled as Lean strings (the sources only ever
  handle ASCII expression text, where the two agree character for character).
* Regular-expression operations of the source are modelled by explicit
  scanning functions over character lists: literal global replacement for
  the mpmath cleanup, and whole-word (backslash-b delimited) matching for
  constant substitution and for the complexity counts, with the exact
  left-to-right, first-alternative-wins behaviour of JavaScript RegExp.
-/

/-- Modelled Decimal.js value: an exact rational, a signed infinity, or NaN. -/
inductive Dec : Type
  | num (q : ℚ)
  | posInf
  | negInf
  | nan
deriving DecidableEq, Repr

namespace Dec

/-- Negation of a Decimal value. -/
def neg : Dec → Dec
  | num q => num (-q)
  | posInf => negInf
  | negInf => posInf
  | nan => nan

/-- Absolute value of a Decimal value. -/
def abs : Dec → Dec
  | num q => num |q|
  | posInf => posInf
  | negInf => posInf
  | nan => nan

/-- Addition of Decimal values; opposite infinities give NaN. -/
def add : Dec → Dec → Dec
  | num a, num b => num (a + b)
  | num _, posInf => posInf
  | num _, negInf => negInf
  | posInf, num _ => posInf
  | negInf, num _ => negInf
  | posInf, posInf => posInf
  | negInf, negInf => negInf
  | posInf, negInf => nan
  | negInf, posInf => nan
  | _, nan => nan
  | nan, _ => nan

/-- Subtraction of Decimal values. -/
def sub (a b : Dec) : Dec := add a (neg b)

/-- Multiplication of Decimal values; zero times infinity gives NaN. -/
def mul : Dec → Dec → Dec
  | num a, num b => num (a * b)
  | num a, posInf => if a = 0 then nan else if 0 < a then posInf else negInf
  | num a, negInf => if a = 0 then nan else if 0 < a then negInf else posInf
  | posInf, num b => if b = 0 then nan else if 0 < b then posInf else negInf
  | negInf, num b => if b = 0 then nan else if 0 < b then negInf else posInf
  | posInf, posInf => posInf
  | negInf, negInf => posInf
  | posInf, negInf => negInf
  | negInf, posInf => negInf
  | _, nan => nan
  | nan, _ => nan

/-- Division of Decimal values, with the Decimal.js conventions: a nonzero
finite value divided by zero is signed infinity, zero divided by zero is NaN,
a finite value divided by infinity is zero, infinity divided by infinity is
NaN. -/
def div : Dec → Dec → Dec
  | num a, num b =>
      if b = 0 then
        if a = 0 then nan else if 0 < a then posInf else negInf
      else num (a / b)
  | num _, posInf => num 0
  | num _, negInf => num 0
  | posInf, num b => if 0 ≤ b then posInf else negInf
  | negInf, num b => if 0 ≤ b then negInf else posInf
  | posInf, posInf => nan
  | posInf, negInf => nan
  | negInf, posInf => nan
  | negInf, negInf => nan
  | _, nan => nan
  | nan, _ => nan

/-- True exactly on finite (rational) Decimal values. -/
def isFinite : Dec → Bool
  | num _ => true
  | _ => false

end Dec

/-- Comparison used by the batch ranking step.  The route sorts with the
JavaScript comparator fun (a, b) => b.quality.score - a.quality.score; the
ECMAScript sort treats a comparator result that is NaN as zero (equal keys)
and is stable.  cmpKeep a b is true when the comparator does not require b to
be placed before a, i.e. when b.score - a.score is nonpositive or NaN. -/
def cmpKeep (x y : Dec) : Bool :=
  match Dec.sub y x with
  | Dec.num d => decide (d ≤ 0)
  | Dec.posInf => false
  | Dec.negInf => true
  | Dec.nan => true

/-- Word character in the sense of JavaScript RegExp backslash-w. -/
def isWordChar (c : Char) : Bool := c.isAlpha || c.isDigit || c = '_'

/-- True when the first list is a character-for-character prefix of the
second. -/
def matchesAt : List Char → List Char → Bool
  | [], _ => true
  | _ :: _, [] => false
  | p :: ps, c :: cs => p = c && matchesAt ps cs

/-- A word boundary holds before the given suffix, i.e. the suffix is empty
or starts with a non-word character. -/
def wordBoundaryAt : List Char → Bool
  | [] => true
  | d :: _ => !isWordChar d

/-- A word boundary holds after the given previous character (none at the
start of the string). -/
def boundaryBefore : Option Char → Bool
  | none => true
  | some p => !isWordChar p

/-- Global literal replacement, as JavaScript String.replace with a literal
global regular expression: left to right, non-overlapping, and replacement
text is not rescanned.  The fuel argument only bounds recursion depth; every
step consumes at least one character, so the wrappers below always supply
enough. -/
def replaceAllF (p : Char) (ps repl : List Char) : ℕ → List Char → List Char
  | 0, s => s
  | _ + 1, [] => []
  | f + 1, c :: rest =>
    if matchesAt (p :: ps) (c :: rest) then
      repl ++ replaceAllF p ps repl f (rest.drop ps.length)
    else
      c :: replaceAllF p ps repl f rest

/-- Global literal replacement with an arbitrary (possibly empty) pattern;
an empty pattern leaves the string unchanged (never used by the sources). -/
def replaceAll (pat repl s : List Char) : List Char :=
  match pat with
  | [] => s
  | p :: ps => replaceAllF p ps repl (s.length + 1) s

/-- Global whole-word replacement, as JavaScript String.replace with the
regular expression backslash-b name backslash-b and the g flag.  Matches are
found in the original string left to right; prev carries the character just
before the current position for the leading word-boundary test. -/
def replaceWordF (n : Char) (ns repl : List Char) : ℕ → Option Char → List Char → List Char
  | 0, _, s => s
  | _ + 1, _, [] => []
  | f + 1, prev, c :: rest =>
    if boundaryBefore prev && matchesAt (n :: ns) (c :: rest)
        && wordBoundaryAt (rest.drop ns.length) then
      repl ++ replaceWordF n ns repl f (some (ns.getLastD n)) (rest.drop ns.length)
    else
      c :: replaceWordF n ns repl f (some c) rest

/-- Whole-word global replacement of name by repl inside s. -/
def replaceWord (name repl s : List Char) : List Char :=
  match name with
  | [] => s
  | n :: ns => replaceWordF n ns repl (s.length + 1) none s

/-- First alternative of alts that matches at the start of s with a word
boundary after it, as the left-to-right alternation of a JavaScript RegExp. -/
def findAlt (alts : List (List Char)) (s : List Char) : Option (List Char) :=
  match alts with
  | [] => none
  | a :: rest =>
    match a with
    | [] => findAlt rest s
    | n :: ns =>
      if matchesAt (n :: ns) s && wordBoundaryAt (s.drop (ns.length + 1)) then
        some (n :: ns)
      else findAlt rest s

/-- Number of whole-word matches of the alternation alts in the string, as
JavaScript String.match with regular expression backslash-b (a1|a2|...)
backslash-b and the g flag. -/
def countWordF (alts : List (List Char)) : ℕ → Option Char → List Char → ℕ
  | 0, _, _ => 0
  | _ + 1, _, [] => 0
  | f + 1, prev, c :: rest =>
    if boundaryBefore prev then
      match findAlt alts (c :: rest) with
      | some a => 1 + countWordF alts f (some (a.getLastD c)) (rest.drop (a.length - 1))
      | none => countWordF alts f (some c) rest
    else
      countWordF alts f (some c) rest

/-- Whole-word match count for an alternation of names. -/
def countWord (alts : List (List Char)) (s : List Char) : ℕ :=
  countWordF alts (s.length + 1) none s

/-- Suffix left after consuming the tail of a numeric literal: remaining
digits, then at most one decimal point, then digits (regex d+ .? d*). -/
def dropNumTail (s : List Char) : List Char :=
  match s.dropWhile Char.isDigit with
  | '.' :: r => r.dropWhile Char.isDigit
  | s1 => s1

/-- Number of maximal numeric literals in the string, as the regex
d+ .? d* with the g flag. -/
def countNumbersF : ℕ → List Char → ℕ
  | 0, _ => 0
  | _ + 1, [] => 0
  | f + 1, c :: rest =>
    if c.isDigit then 1 + countNumbersF f (dropNumTail rest)
    else countNumbersF f rest

/-- Numeric-literal count of a whole string. -/
def countNumbers (s : List Char) : ℕ := countNumbersF (s.length + 1) s

/-- Characters counted as operators by calculateComplexity. -/
def isOperatorChar (c : Char) : Bool :=
  c = '+' || c = '-' || c = '*' || c = '/' || c = '^' || c = '(' || c = ')'

/-- High-precision decimal literal for pi, from the CONSTANTS table of
src/server.js (the Decimal constructor stores it unrounded, and toString
reproduces it, so substitution splices exactly this text). -/
def piStr : String := "3.1415926535897932384626433832795028841971693993751058209749445923078164062862089986280348253421170679"

/-- High-precision decimal literal for e from the CONSTANTS table. -/
def eStr : String := "2.7182818284590452353602874713526624977572470936999595749669676277240766303535475945713821785251664274"

/-- High-precision decimal literal for phi from the CONSTANTS table. -/
def phiStr : String := "1.6180339887498948482045868343656381177203091798057628621354486227052604628189024497072072041893911374"

/-- High-precision decimal literal for gamma from the CONSTANTS table. -/
def gammaStr : String := "0.5772156649015328606065120900824024310421593359399235988057672348848677267776646709369470632917467495"

/-- High-precision decimal literal for sqrt2 from the CONSTANTS table. -/
def sqrt2Str : String := "1.4142135623730950488016887242096980785696718753769480731766797379907324784621070388503875343276415727"

/-- High-precision decimal literal for sqrt3 from the CONSTANTS table. -/
def sqrt3Str : String := "1.7320508075688772935274463415058723669428052538103806280558069794519330169088000370811461867572485757"

/-- High-precision decimal literal for ln2 from the CONSTANTS table. -/
def ln2Str : String := "0.6931471805599453094172321214581765680755001343602552541206800094933936219696947156058633269964186875"

/-- The mpmath cleanup replacements of evaluateExpression, in source order:
literal global replacements applied to the lowercased expression. -/
def mpCleanup : List (String × String) :=
  [("mp.pi", "pi"), ("mp.e", "e"), ("mp.sqrt(", "sqrt("), ("mp.exp(", "exp("),
   ("mp.ln(", "log("), ("mp.log(", "log("), ("mp.sin(", "sin("),
   ("mp.cos(", "cos("), ("mp.tan(", "tan("), ("mp.sinh(", "sinh("),
   ("mp.cosh(", "cosh("), ("mp.tanh(", "tanh("), ("mp.", "")]

/-- Apply a list of literal replacements left to right. -/
def applyReplacements (rs : List (String × String)) (s : List Char) : List Char :=
  rs.foldl (fun acc r => replaceAll r.1.data r.2.data acc) s

/-- Built-in constant substitutions of evaluateExpression, in source order
(each is a whole-word global replacement by the decimal literal). -/
def builtinConstants : List (String × String) :=
  [("pi", piStr), ("e", eStr), ("phi", phiStr), ("gamma", gammaStr),
   ("sqrt2", sqrt2Str), ("sqrt3", sqrt3Str), ("ln2", ln2Str)]

/-- Constant substitution step of evaluateExpression: built-in constants are
replaced first, then the caller-supplied custom constants in map order, each
with whole-word matching.  Custom keys are modelled as plain words (the
source splices the key into a RegExp verbatim). -/
def substituteConstants (s : List Char) (custom : List (String × String)) : List Char :=
  let s1 := builtinConstants.foldl (fun acc kv => replaceWord kv.1.data kv.2.data acc) s
  custom.foldl (fun acc kv => replaceWord kv.1.data kv.2.data acc) s1

/-- ASCII lowercase of one character, as JavaScript toLowerCase acts on the
ASCII expression text the sources handle. -/
def asciiLower (c : Char) : Char :=
  if 'A' ≤ c && c ≤ 'Z' then Char.ofNat (c.toNat + 32) else c

/-- Normalization pipeline of evaluateExpression in src/server.js: lowercase
the whole expression, apply the mpmath cleanup replacements, then substitute
built-in and custom constants. -/
def normalizeExpression (expression : String) (custom : List (String × String)) : List Char :=
  substituteConstants (applyReplacements mpCleanup (expression.data.map asciiLower)) custom

/-- Evaluation failure kinds of the arithmetic core.  parseError covers
malformed syntax; unknownFunction and unknownSymbol are undefined names;
nonReal marks inputs whose mathjs result is not a real number (so the
Decimal conversion in evaluateExpression throws); notRational marks values
this exact-rational model does not represent (the real library returns a
floating-point approximation there; no claim below depends on such a value). -/
inductive EvalErr : Type
  | parseError
  | unknownFunction (f : String)
  | unknownSymbol (s : String)
  | nonReal
  | notRational
deriving DecidableEq, Repr

/-- Tokens of the mathjs expression grammar used by the sources. -/
inductive Tok : Type
  | num (q : ℚ)
  | ident (s : String)
  | plus | minus | star | slash | caret | lpar | rpar
deriving DecidableEq, Repr

/-- Numeric value of a string of decimal digits. -/
def digitsToNat (ds : List Char) : ℕ :=
  ds.foldl (fun n c => 10 * n + (c.toNat - '0'.toNat)) 0

/-- Lex one numeric literal (digits, optional point, digits), returning its
rational value and the remaining characters. -/
def lexNumber (s : List Char) : ℚ × List Char :=
  let ip := s.takeWhile Char.isDigit
  let r1 := s.dropWhile Char.isDigit
  match r1 with
  | '.' :: r2 =>
    let fp := r2.takeWhile Char.isDigit
    ((digitsToNat ip : ℚ) + (digitsToNat fp : ℚ) / 10 ^ fp.length,
      r2.dropWhile Char.isDigit)
  | _ => ((digitsToNat ip : ℚ), r1)

/-- Fueled tokenizer for the arithmetic core.  Modelled from the mathjs
expression syntax restricted to what the engine feeds it: numbers,
identifiers, the operators + - * / ^ and parentheses.  Scientific notation
is not modelled (no claim exercises it). -/
def tokenizeF : ℕ → List Char → Except EvalErr (List Tok)
  | 0, _ => .error .parseError
  | _ + 1, [] => .ok []
  | f + 1, c :: rest =>
    if c.isWhitespace then tokenizeF f rest
    else if c = '+' then (tokenizeF f rest).map (Tok.plus :: ·)
    else if c = '-' then (tokenizeF f rest).map (Tok.minus :: ·)
    else if c = '*' then (tokenizeF f rest).map (Tok.star :: ·)
    else if c = '/' then (tokenizeF f rest).map (Tok.slash :: ·)
    else if c = '^' then (tokenizeF f rest).map (Tok.caret :: ·)
    else if c = '(' then (tokenizeF f rest).map (Tok.lpar :: ·)
    else if c = ')' then (tokenizeF f rest).map (Tok.rpar :: ·)
    else if c.isDigit then
      let r := lexNumber (c :: rest)
      (tokenizeF f r.2).map (Tok.num r.1 :: ·)
    else if c = '.' then
      match rest with
      | d :: _ =>
        if d.isDigit then
          let r := lexNumber (c :: rest)
          (tokenizeF f r.2).map (Tok.num r.1 :: ·)
        else .error .parseError
      | [] => .error .parseError
    else if c.isAlpha || c = '_' then
      let name := (c :: rest).takeWhile isWordChar
      (tokenizeF f ((c :: rest).dropWhile isWordChar)).map
        (Tok.ident (String.mk name) :: ·)
    else .error .parseError

/-- Abstract syntax of the arithmetic core. -/
inductive MExpr : Type
  | lit (q : ℚ)
  | add (a b : MExpr)
  | sub (a b : MExpr)
  | mul (a b : MExpr)
  | div (a b : MExpr)
  | pow (a b : MExpr)
  | neg (a : MExpr)
  | call (f : String) (a : MExpr)
deriving DecidableEq, Repr

/-! Fueled recursive-descent parsing of the token stream, with the mathjs
precedence used by the sources: addition below multiplication below unary
minus below right-associative exponentiation; a bare identifier that is not
applied to parentheses is an undefined symbol (the engine substitutes every
known constant away before the core runs, and mathjs evaluates with an empty
scope).  Implicit multiplication is not modelled (no claim exercises it). -/
mutual

def parseAddE : ℕ → List Tok → Except EvalErr (MExpr × List Tok)
  | 0, _ => .error .parseError
  | f + 1, ts => do
    let r ← parseMulE f ts
    parseAddRest f r.1 r.2

def parseAddRest : ℕ → MExpr → List Tok → Except EvalErr (MExpr × List Tok)
  | 0, _, _ => .error .parseError
  | f + 1, a, ts =>
    match ts with
    | Tok.plus :: ts1 => do
      let r ← parseMulE f ts1
      parseAddRest f (MExpr.add a r.1) r.2
    | Tok.minus :: ts1 => do
      let r ← parseMulE f ts1
      parseAddRest f (MExpr.sub a r.1) r.2
    | _ => .ok (a, ts)

def parseMulE : ℕ → List Tok → Except EvalErr (MExpr × List Tok)
  | 0, _ => .error .parseError
  | f + 1, ts => do
    let r ← parseUnaryE f ts
    parseMulRest f r.1 r.2

def parseMulRest : ℕ → MExpr → List Tok → Except EvalErr (MExpr × List Tok)
  | 0, _, _ => .error .parseError
  | f + 1, a, ts =>
    match ts with
    | Tok.star :: ts1 => do
      let r ← parseUnaryE f ts1
      parseMulRest f (MExpr.mul a r.1) r.2
    | Tok.slash :: ts1 => do
      let r ← parseUnaryE f ts1
      parseMulRest f (MExpr.div a r.1) r.2
    | _ => .ok (a, ts)

def parseUnaryE : ℕ → List Tok → Except EvalErr (MExpr × List Tok)
  | 0, _ => .error .parseError
  | f + 1, ts =>
    match ts with
    | Tok.minus :: ts1 => do
      let r ← parseUnaryE f ts1
      .ok (MExpr.neg r.1, r.2)
    | Tok.plus :: ts1 => parseUnaryE f ts1
    | _ => parsePowE f ts

def parsePowE : ℕ → List Tok → Except EvalErr (MExpr × List Tok)
  | 0, _ => .error .parseError
  | f + 1, ts => do
    let r ← parseAtomE f ts
    match r.2 with
    | Tok.caret :: ts1 => do
      let r2 ← parseUnaryE f ts1
      .ok (MExpr.pow r.1 r2.1, r2.2)
    | _ => .ok r

def parseAtomE : ℕ → List Tok → Except EvalErr (MExpr × List Tok)
  | 0, _ => .error .parseError
  | f + 1, ts =>
    match ts with
    | Tok.num q :: ts1 => .ok (MExpr.lit q, ts1)
    | Tok.ident s :: Tok.lpar :: ts1 => do
      let r ← parseAddE f ts1
      match r.2 with
      | Tok.rpar :: ts2 => .ok (MExpr.call s r.1, ts2)
      | _ => .error .parseError
    | Tok.ident s :: _ => .error (.unknownSymbol s)
    | Tok.lpar :: ts1 => do
      let r ← parseAddE f ts1
      match r.2 with
      | Tok.rpar :: ts2 => .ok (r.1, ts2)
      | _ => .error .parseError
    | _ => .error .parseError

end

/-- Function namespace of the mathjs dependency, as far as the engine can
reach it.  Modelled from the mathjs function reference (the library is a
package dependency, its sources are not part of this repository): the
natural logarithm is named log, there is no function named ln, and the
namespace is wider than the set listed in the specification (for example
abs, cbrt, floor are defined). -/
def mathjsFunctions : List String :=
  ["abs", "cbrt", "ceil", "cos", "cosh", "exp", "floor", "gamma", "log",
   "log10", "log2", "round", "sign", "sin", "sinh", "sqrt", "tan", "tanh",
   "asin", "acos", "atan", "asinh", "acosh", "atanh"]

/-- Largest candidate at most f whose square is at most n (a structurally
recursive integer square root, so that concrete instances compute). -/
def natSqrtAux : ℕ → ℕ → ℕ
  | 0, _ => 0
  | f + 1, n => if (f + 1) * (f + 1) ≤ n then f + 1 else natSqrtAux f n

/-- Integer square root by bounded descent. -/
def natSqrt (n : ℕ) : ℕ := natSqrtAux n n

/-- Exact rational square root, when it exists. -/
def ratSqrt (q : ℚ) : Option ℚ :=
  let n := q.num.toNat
  let d := q.den
  let sn := natSqrt n
  let sd := natSqrt d
  if sn * sn = n && sd * sd = d then some ((sn : ℚ) / (sd : ℚ)) else none

/-- Application of a defined mathjs function to an argument value, modelled
exactly on rational-valued cases; notRational marks results the exact model
does not represent, nonReal marks arguments whose mathjs result is complex
(so the Decimal conversion of evaluateExpression throws). -/
def applyFn (f : String) (v : Dec) : Except EvalErr Dec :=
  if f = "abs" then .ok v.abs
  else
    match v with
    | Dec.num q =>
      if f = "floor" then .ok (Dec.num ⌊q⌋)
      else if f = "ceil" then .ok (Dec.num ⌈q⌉)
      else if f = "sign" then .ok (Dec.num (if q < 0 then -1 else if q = 0 then 0 else 1))
      else if f = "sqrt" then
        if q < 0 then .error .nonReal
        else match ratSqrt q with
          | some r => .ok (Dec.num r)
          | none => .error .notRational
      else if f = "log" then
        if q ≤ 0 then .error .nonReal
        else if q = 1 then .ok (Dec.num 0)
        else .error .notRational
      else if f = "exp" then
        if q = 0 then .ok (Dec.num 1) else .error .notRational
      else if f = "sin" || f = "tan" || f = "sinh" || f = "tanh"
          || f = "atan" || f = "asinh" || f = "atanh" then
        if q = 0 then .ok (Dec.num 0) else .error .notRational
      else if f = "cos" || f = "cosh" then
        if q = 0 then .ok (Dec.num 1) else .error .notRational
      else if f = "asin" then
        if q < -1 || 1 < q then .error .nonReal
        else if q = 0 then .ok (Dec.num 0) else .error .notRational
      else if f = "acos" then
        if q < -1 || 1 < q then .error .nonReal
        else if q = 1 then .ok (Dec.num 0) else .error .notRational
      else .error .notRational
    | _ => .error .notRational

/-- Exponentiation with JavaScript number semantics on the cases the model
represents: integral exponents are exact, zero to a negative power is
Infinity; other cases are outside the rational model. -/
def powDec (a b : Dec) : Except EvalErr Dec :=
  match a, b with
  | Dec.num x, Dec.num y =>
    if y.den = 1 then
      if x = 0 && y.num < 0 then .ok Dec.posInf
      else .ok (Dec.num (x ^ y.num))
    else .error .notRational
  | _, _ => .error .notRational

/-- Evaluation of the abstract syntax over Decimal values, with the
JavaScript floating-point conventions for infinities (division by zero
inside an expression yields Infinity, as mathjs numbers do). -/
def evalM : MExpr → Except EvalErr Dec
  | MExpr.lit q => .ok (Dec.num q)
  | MExpr.add a b => do .ok (Dec.add (← evalM a) (← evalM b))
  | MExpr.sub a b => do .ok (Dec.sub (← evalM a) (← evalM b))
  | MExpr.mul a b => do .ok (Dec.mul (← evalM a) (← evalM b))
  | MExpr.div a b => do .ok (Dec.div (← evalM a) (← evalM b))
  | MExpr.pow a b => do powDec (← evalM a) (← evalM b)
  | MExpr.neg a => do .ok (Dec.neg (← evalM a))
  | MExpr.call f a => do
    let v ← evalM a
    if f ∈ mathjsFunctions then applyFn f v else .error (.unknownFunction f)

/-- The arithmetic core: tokenize, parse and evaluate a normalized
expression string, requiring the whole input to be consumed. -/
def mathjsEval (s : List Char) : Except EvalErr Dec := do
  let ts ← tokenizeF (s.length + 1) s
  let r ← parseAddE (8 * ts.length + 8) ts
  match r.2 with
  | [] => evalM r.1
  | _ => .error .parseError

/-- evaluateExpression of src/server.js: normalize (lowercase, mpmath
cleanup, constant substitution with the caller-supplied custom constants),
evaluate through the arithmetic core, and convert to a Decimal value. -/
def evaluateExpression (expression : String) (constants : List (String × String)) :
    Except EvalErr Dec :=
  mathjsEval (normalizeExpression expression constants)

/-- Function-name alternation of the complexity regex in calculateComplexity
of src/server.js (note: the source regex has exactly these ten alternatives;
sinh, cosh and tanh are absent). -/
def complexityFunctionNames : List (List Char) :=
  ["sqrt", "log", "ln", "exp", "sin", "cos", "tan", "asin", "acos", "atan"].map String.data

/-- Constant-name alternation of the complexity regex in calculateComplexity. -/
def complexityConstantNames : List (List Char) :=
  ["pi", "e", "phi", "gamma", "sqrt2", "sqrt3", "ln2"].map String.data

/-- calculateComplexity of src/server.js: expression length plus twice the
operator-character count plus three times the whole-word function-name count
plus the whole-word constant-name count plus the numeric-literal count. -/
def calculateComplexity (expression : String) : ℕ :=
  let s := expression.data
  let operators := (s.filter isOperatorChar).length
  let functions := countWord complexityFunctionNames s
  let constants := countWord complexityConstantNames s
  let numbers := countNumbers s
  expression.length + operators * 2 + functions * 3 + constants + numbers

/-- calculateAccuracy of src/server.js.  The source returns the working
precision (50) when the absolute error is exactly zero; otherwise it
computes the floor of the negated base-10 logarithm of the error and clamps
it to the range 0..50.  In exact arithmetic the floor of the negated base-10
logarithm of a positive rational q is the negated ceiling logarithm
Int.clog 10 q (the theorem on this definition below re-derives the
floor-of-logarithm characterization independently).  A negative argument
makes the Decimal logarithm NaN, which the clamp propagates; an infinite
error clamps to zero. -/
def calculateAccuracy (absoluteError : Dec) : Dec :=
  match absoluteError with
  | Dec.num q =>
    if q = 0 then Dec.num 50
    else if q < 0 then Dec.nan
    else Dec.num ((max 0 (min 50 (-(Int.clog 10 q))) : ℤ) : ℚ)
  | Dec.posInf => Dec.num 0
  | Dec.negInf => Dec.nan
  | Dec.nan => Dec.nan

/-- calculateOverallScore of src/server.js: the reciprocal of the absolute
error plus the 1e-50 floor, times the reciprocal of complexity plus one.
The source converts the product to a JavaScript number for ranking; the
model keeps the exact value (the conversion only matters for comparisons of
scores closer than double precision, which no claim exercises). -/
def calculateOverallScore (absoluteError : Dec) (complexity : ℕ) : Dec :=
  let errorScore := Dec.div (Dec.num 1) (Dec.add absoluteError (Dec.num (1 / 10 ^ 50)))
  let complexityPenalty := Dec.div (Dec.num 1) (Dec.num ((complexity : ℚ) + 1))
  Dec.mul errorScore complexityPenalty

/-- Parse of an unsigned decimal string (digits, optional point, digits) as
the Decimal constructor accepts; none models the constructor throwing.
Scientific notation and the Infinity and NaN spellings are not modelled (no
claim exercises them). -/
def parseUnsignedDec (l : List Char) : Option Dec :=
  let ip := l.takeWhile Char.isDigit
  let r1 := l.dropWhile Char.isDigit
  match r1 with
  | [] => if ip.isEmpty then none else some (Dec.num (digitsToNat ip))
  | '.' :: r2 =>
    let fp := r2.takeWhile Char.isDigit
    let r3 := r2.dropWhile Char.isDigit
    if r3.isEmpty then
      if ip.isEmpty && fp.isEmpty then none
      else some (Dec.num ((digitsToNat ip : ℚ) + (digitsToNat fp : ℚ) / 10 ^ fp.length))
    else none
  | _ => none

/-- The Decimal constructor applied to a string, as used on the target value
inside calculateApproximationQuality. -/
def parseDecString (s : String) : Option Dec :=
  match s.data with
  | [] => none
  | '-' :: rest => (parseUnsignedDec rest).map Dec.neg
  | '+' :: rest => parseUnsignedDec rest
  | l => parseUnsignedDec l

/-- Quality metrics record returned by calculateApproximationQuality.  The
source serializes the Decimal fields to strings for the response; the model
keeps the Decimal values. -/
structure Quality : Type where
  absoluteError : Dec
  relativeError : Dec
  complexity : ℕ
  eleganceScore : Dec
  accuracy : Dec
  score : Dec
deriving DecidableEq, Repr

/-- calculateApproximationQuality of src/server.js: parse the target with
the Decimal constructor (a failure there is the thrown quality-calculation
error), then compute absolute error, relative error (a Decimal division,
which yields Infinity on a zero target rather than throwing), complexity,
elegance, accuracy digits, and the overall score. -/
def calculateApproximationQuality (computed : Dec) (target : String) (expression : String) :
    Except String Quality :=
  match parseDecString target with
  | none => .error "Quality calculation failed: invalid target value"
  | some t =>
    let absoluteError := (Dec.sub computed t).abs
    let relativeError := Dec.div absoluteError t.abs
    let complexity := calculateComplexity expression
    let eleganceScore :=
      Dec.mul absoluteError (Dec.add (Dec.num 1) (Dec.mul (Dec.num (1 / 100)) (Dec.num complexity)))
    let accuracy := calculateAccuracy absoluteError
    .ok ⟨absoluteError, relativeError, complexity, eleganceScore, accuracy,
      calculateOverallScore absoluteError complexity⟩

/-- A JavaScript value as it appears in a batch-item field: absent
(undefined), a string, or a number.  Numbers are modelled as rationals. -/
inductive JSValue : Type
  | undef
  | str (s : String)
  | num (q : ℚ)
deriving DecidableEq, Repr

/-- JavaScript truthiness: undefined, the empty string and zero are falsy. -/
def truthy : JSValue → Bool
  | JSValue.undef => false
  | JSValue.str s => !s.isEmpty
  | JSValue.num q => decide (q ≠ 0)

/-- The JavaScript logical-or: the first operand when truthy, else the
second. -/
def jsOr (a b : JSValue) : JSValue := if truthy a then a else b

/-- JavaScript toString, as used by parseApproximation on the selected field
values.  It is modelled for strings and integral numbers; the sources apply
it only to values the claims exercise. -/
def jsToString : JSValue → String
  | JSValue.undef => "undefined"
  | JSValue.str s => s
  | JSValue.num q => if q.den = 1 then toString q.num else "nonintegral-number"

/-- A raw batch item: the JSON object fields parseApproximation inspects
(all the alternative names), each possibly absent. -/
structure RawItem : Type where
  expression : JSValue := JSValue.undef
  expr : JSValue := JSValue.undef
  formula : JSValue := JSValue.undef
  value : JSValue := JSValue.undef
  target : JSValue := JSValue.undef
  computed : JSValue := JSValue.undef
  result : JSValue := JSValue.undef
  targetName : JSValue := JSValue.undef
  target_name : JSValue := JSValue.undef
  name : JSValue := JSValue.undef
  description : JSValue := JSValue.undef
  desc : JSValue := JSValue.undef
deriving DecidableEq, Repr

/-- Fields of a successfully parsed approximation (parseApproximation of
parser.js, after toString on each selected value). -/
structure ParsedCore : Type where
  expression : String
  targetValue : String
  targetName : String
  description : String
deriving DecidableEq, Repr

/-- parseApproximation of parser.js: field extraction across the alternative
names with the JavaScript logical-or (first truthy value wins), then the two
missing-field validations, expression first. -/
def parseApproximation (approx : RawItem) : Except String ParsedCore :=
  let expression := jsOr (jsOr approx.expression approx.expr) approx.formula
  let targetValue :=
    jsOr (jsOr (jsOr approx.value approx.target) approx.computed) approx.result
  let targetName :=
    jsOr (jsOr (jsOr approx.targetName approx.target_name) approx.name) (JSValue.str "unknown")
  let description := jsOr (jsOr approx.description approx.desc) (JSValue.str "")
  if !truthy expression then
    .error "Missing expression field (tried: expression, expr, formula)"
  else if !truthy targetValue then
    .error "Missing target value field (tried: value, target, computed, result)"
  else
    .ok ⟨jsToString expression, jsToString targetValue, jsToString targetName,
      jsToString description⟩

/-- An entry of the batch errors list.  The top-level shape error carries no
expression field (none); per-item entries carry the expression text or the
source placeholder. -/
structure ErrEntry : Type where
  index : ℤ
  expression : Option String
  error : String
deriving DecidableEq, Repr

/-- A parsed batch item together with its original index, as pushed by
parseBatch of parser.js. -/
structure ParsedItem : Type where
  index : ℕ
  expression : String
  targetValue : String
  targetName : String
  description : String
deriving DecidableEq, Repr

/-- The top-level batch payload: either an array of items or a value of some
other shape. -/
inductive BatchInput : Type
  | array (items : List RawItem)
  | notArray
deriving Repr

/-- One step of the parseBatch forEach loop: a success is consed onto the
parsed list with its index, a failure onto the error list with the index and
the raw expression field or the placeholder missing. -/
def parseStep (i : ℕ) (a : RawItem) (res : Except String ParsedCore)
    (t : List ParsedItem × List ErrEntry) : List ParsedItem × List ErrEntry :=
  match res with
  | .ok p => (⟨i, p.expression, p.targetValue, p.targetName, p.description⟩ :: t.1, t.2)
  | .error m =>
    (t.1,
      ⟨(i : ℤ), some (if truthy a.expression then jsToString a.expression else "missing"), m⟩
        :: t.2)

/-- The forEach loop of parseBatch, processing items in order starting at
index i. -/
def parseBatchAux (i : ℕ) : List RawItem → List ParsedItem × List ErrEntry
  | [] => ([], [])
  | a :: rest => parseStep i a (parseApproximation a) (parseBatchAux (i + 1) rest)

/-- parseBatch of parser.js: a non-array payload short-circuits with no
parsed items and the single index -1 error entry; an array is processed item
by item. -/
def parseBatch : BatchInput → List ParsedItem × List ErrEntry
  | BatchInput.array items => parseBatchAux 0 items
  | BatchInput.notArray => ([], [⟨-1, none, "Input must be an array"⟩])

/-- Human-readable message of an evaluation failure, as the thrown-error
text of evaluateExpression. -/
def errMessage : EvalErr → String
  | EvalErr.parseError => "Expression evaluation failed: parse error"
  | EvalErr.unknownFunction f => "Expression evaluation failed: Undefined function " ++ f
  | EvalErr.unknownSymbol s => "Expression evaluation failed: Undefined symbol " ++ s
  | EvalErr.nonReal => "Expression evaluation failed: result is not a real number"
  | EvalErr.notRational => "Expression evaluation failed: value outside the exact model"

/-- A successfully scored batch item, as pushed onto results by the
evaluate-batch route of src/server.js. -/
structure ResultEntry : Type where
  index : ℕ
  expression : String
  target : String
  targetName : String
  description : String
  computed : Dec
  quality : Quality
deriving DecidableEq, Repr

/-- Handling of the scorer outcome by the per-item try block: a thrown
scoring error is recorded with the item index and its expression text (or
the placeholder unknown for an empty one, from the logical-or with the
string unknown); a success becomes a result entry. -/
def scoreStep (it : ParsedItem) (computed : Dec) (res : Except String Quality) :
    Except ErrEntry ResultEntry :=
  match res with
  | .error m =>
    .error ⟨(it.index : ℤ),
      some (if it.expression.isEmpty then "unknown" else it.expression), m⟩
  | .ok q =>
    .ok ⟨it.index, it.expression, it.targetValue, it.targetName, it.description, computed, q⟩

/-- Handling of the evaluator outcome by the per-item try block: a thrown
evaluation error is recorded like a scoring error; a computed value is
passed on to the scorer. -/
def evalOutcomeStep (it : ParsedItem) (res : Except EvalErr Dec) :
    Except ErrEntry ResultEntry :=
  match res with
  | .error err =>
    .error ⟨(it.index : ℤ),
      some (if it.expression.isEmpty then "unknown" else it.expression), errMessage err⟩
  | .ok computed =>
    scoreStep it computed (calculateApproximationQuality computed it.targetValue it.expression)

/-- The body of the per-item try block of the evaluate-batch route: evaluate
the expression (with no custom constants), then score it; either failure is
recorded, a success is collected. -/
def perItemResult (it : ParsedItem) : Except ErrEntry ResultEntry :=
  evalOutcomeStep it (evaluateExpression it.expression [])

/-- One step of the evaluate-and-score forEach loop: a success is consed
onto the results, a failure onto the errors. -/
def evalStep (res : Except ErrEntry ResultEntry) (t : List ResultEntry × List ErrEntry) :
    List ResultEntry × List ErrEntry :=
  match res with
  | .ok r => (r :: t.1, t.2)
  | .error e => (t.1, e :: t.2)

/-- The forEach loop of the evaluate-batch route over the parsed items:
results and errors accumulate independently, in input order. -/
def evalItems : List ParsedItem → List ResultEntry × List ErrEntry
  | [] => ([], [])
  | p :: rest => evalStep (perItemResult p) (evalItems rest)

/-- Stable insertion of an item into a list already ranked by descending
score: the item stays before the first entry the comparator does not require
ahead of it. -/
def rankedInsert (x : ResultEntry) : List ResultEntry → List ResultEntry
  | [] => [x]
  | y :: ys =>
    if cmpKeep x.quality.score y.quality.score then x :: y :: ys
    else y :: rankedInsert x ys

/-- The results.sort of the evaluate-batch route: the ECMAScript stable sort
with comparator fun (a, b) => b.quality.score - a.quality.score, i.e. a
stable sort by descending overall score, realized as a stable insertion
sort. -/
def rankResults : List ResultEntry → List ResultEntry
  | [] => []
  | x :: xs => rankedInsert x (rankResults xs)

/-- The summary block of the batch response. -/
structure BatchSummary : Type where
  total : ℕ
  successful : ℕ
  failed : ℕ
  bestScore : Dec
deriving DecidableEq, Repr

/-- The batch response: ranked results, the error list, and the summary. -/
structure BatchResponse : Type where
  results : List ResultEntry
  errors : List ErrEntry
  summary : BatchSummary
deriving DecidableEq, Repr

/-- The ranked results of the batch response: the successes of the per-item
loop sorted by descending score. -/
def batchRanked (items : List RawItem) : List ResultEntry :=
  rankResults (evalItems (parseBatch (BatchInput.array items)).1).1

/-- The errors array of the batch response: the parse errors followed by the
evaluation and scoring errors, as the route spreads parseErrors first and
then pushes. -/
def batchErrors (items : List RawItem) : List ErrEntry :=
  (parseBatch (BatchInput.array items)).2 ++ (evalItems (parseBatch (BatchInput.array items)).1).2

/-- The evaluate-batch route of src/server.js on an array payload: parse the
batch, evaluate and score each parsed item independently, sort the successes
by descending score, and derive the summary. -/
def evaluateBatch (items : List RawItem) : BatchResponse :=
  ⟨batchRanked items, batchErrors items,
    ⟨items.length, (batchRanked items).length, (batchErrors items).length,
      match batchRanked items with
      | [] => Dec.num 0
      | r :: _ => r.quality.score⟩⟩

/-- The evaluate-batch route including its top-level array check: a
non-array approximations value is answered with the HTTP 400 error and no
per-item processing. -/
def evaluateBatchRoute : BatchInput → Except String BatchResponse
  | BatchInput.notArray => .error "approximations must be an array"
  | BatchInput.array items => .ok (evaluateBatch items)

/-- The full supported function set as the specification lists it, sinh,
cosh and tanh included (the claim-side alternation, for comparison with the
source regex of calculateComplexity). -/
def specFullFunctionNames : List (List Char) :=
  ["sqrt", "log", "ln", "exp", "sin", "cos", "tan", "asin", "acos", "atan",
   "sinh", "cosh", "tanh"].map String.data

/-- The complexity formula exactly as the claim states it: like
calculateComplexity but counting whole-word matches against the full
supported function set, including the hyperbolic functions. -/
def specComplexityFullFunctions (expression : String) : ℕ :=
  let s := expression.data
  expression.length + (s.filter isOperatorChar).length * 2
    + countWord specFullFunctionNames s * 3
    + countWord complexityConstantNames s + countNumbers s

/-- A scored batch item with the given original index and overall score and
neutral remaining fields, for the ranking example of the specification. -/
def exampleScored (i : ℕ) (s : ℚ) : ResultEntry :=
  ⟨i, "", "", "", "", Dec.num 0, ⟨Dec.num 0, Dec.num 0, 0, Dec.num 0, Dec.num 0, Dec.num s⟩⟩

/-- Ordering delivered by the ranking step: a precedes b when the comparator
allows a before b (descending score, a NaN difference counting as equal) and,
on exactly equal scores, when a kept its original submission order. -/
def RankedOrder (a b : ResultEntry) : Prop :=
  cmpKeep a.quality.score b.quality.score = true ∧
    (a.quality.score = b.quality.score → a.index < b.index)

/-- Decidable equality of evaluation outcomes, for concrete checking. -/
instance instDecEqExcept {ε α : Type} [DecidableEq ε] [DecidableEq α] :
    DecidableEq (Except ε α) := fun a b =>
  match a, b with
  | .error e, .error e2 =>
    if h : e = e2 then isTrue (by rw [h]) else isFalse (by simp [h])
  | .ok v, .ok v2 =>
    if h : v = v2 then isTrue (by rw [h]) else isFalse (by simp [h])
  | .error _, .ok _ => isFalse (by simp)
  | .ok _, .error _ => isFalse (by simp)

attribute [local semireducible] Rat.mul Rat.inv Rat.add Rat.sub

theorem isFinite_iff {d : Dec} : d.isFinite = true ↔ ∃ q : ℚ, d = Dec.num q := by
  cases d <;> simp [Dec.isFinite]

theorem cmpKeep_num {a b : ℚ} : cmpKeep (Dec.num a) (Dec.num b) = true ↔ b ≤ a := by
  simp only [cmpKeep, Dec.sub, Dec.neg, Dec.add, decide_eq_true_eq]
  constructor <;> intro h <;> linarith

theorem mem_rankedInsert {x y : ResultEntry} {l : List ResultEntry} :
    y ∈ rankedInsert x l ↔ y = x ∨ y ∈ l := by
  induction l with
  | nil => simp [rankedInsert]
  | cons z zs ih =>
    simp only [rankedInsert]
    split
    · simp
    · simp [ih]
      tauto

theorem rankedInsert_perm (x : ResultEntry) (l : List ResultEntry) :
    (rankedInsert x l).Perm (x :: l) := by
  induction l with
  | nil => simp [rankedInsert]
  | cons z zs ih =>
    simp only [rankedInsert]
    split
    · exact List.Perm.refl _
    · exact (ih.cons z).trans (List.Perm.swap x z zs)

theorem rankResults_perm (l : List ResultEntry) : (rankResults l).Perm l := by
  induction l with
  | nil => simp [rankResults]
  | cons x xs ih =>
    exact (rankedInsert_perm x (rankResults xs)).trans (ih.cons x)

theorem rankedInsert_pairwise {x : ResultEntry} {l : List ResultEntry}
    (hfx : x.quality.score.isFinite = true)
    (hfl : ∀ y ∈ l, y.quality.score.isFinite = true)
    (hidx : ∀ y ∈ l, x.index < y.index)
    (hl : l.Pairwise RankedOrder) :
    (rankedInsert x l).Pairwise RankedOrder := by
  induction l with
  | nil => simp [rankedInsert, List.Pairwise]
  | cons y ys ih =>
    obtain ⟨qx, hqx⟩ := isFinite_iff.mp hfx
    obtain ⟨qy, hqy⟩ := isFinite_iff.mp (hfl y (List.mem_cons_self y ys))
    simp only [rankedInsert]
    split
    · next hkeep =>
      refine List.Pairwise.cons ?_ hl
      intro z hz
      rcases List.mem_cons.mp hz with rfl | hz
      · exact ⟨hkeep, fun _ => hidx z (List.mem_cons_self z ys)⟩
      · obtain ⟨qz, hqz⟩ := isFinite_iff.mp (hfl z (List.mem_cons_of_mem y hz))
        have hyz := (List.pairwise_cons.mp hl).1 z hz
        have h1 : qy ≤ qx := cmpKeep_num.mp (by rw [hqx, hqy] at hkeep; exact hkeep)
        have h2 : qz ≤ qy := cmpKeep_num.mp (by
          have := hyz.1
          rw [hqy, hqz] at this
          exact this)
        constructor
        · rw [hqx, hqz]
          exact cmpKeep_num.mpr (le_trans h2 h1)
        · intro _
          exact hidx z (List.mem_cons_of_mem y hz)
    · next hkeep =>
      have hys := List.pairwise_cons.mp hl
      refine List.Pairwise.cons ?_ (ih (fun z hz => hfl z (List.mem_cons_of_mem y hz))
        (fun z hz => hidx z (List.mem_cons_of_mem y hz)) hys.2)
      intro z hz
      rcases mem_rankedInsert.mp hz with rfl | hz
      · have hlt : qx < qy := by
          by_contra hc
          exact hkeep (by rw [hqx, hqy]; exact cmpKeep_num.mpr (not_lt.mp hc))
        constructor
        · rw [hqx, hqy]
          exact cmpKeep_num.mpr (le_of_lt hlt)
        · intro heq
          rw [hqx, hqy] at heq
          cases heq
          exact absurd rfl (ne_of_lt hlt)
      · exact hys.1 z hz

theorem rankResults_pairwise {l : List ResultEntry}
    (hf : ∀ y ∈ l, y.quality.score.isFinite = true)
    (hidx : l.Pairwise (fun a b => a.index < b.index)) :
    (rankResults l).Pairwise RankedOrder := by
  induction l with
  | nil => simp [rankResults, List.Pairwise]
  | cons x xs ih =>
    have hxs := List.pairwise_cons.mp hidx
    refine rankedInsert_pairwise (hf x (List.mem_cons_self x xs)) ?_ ?_
      (ih (fun y hy => hf y (List.mem_cons_of_mem x hy)) hxs.2)
    · intro y hy
      exact hf y (List.mem_cons_of_mem x ((rankResults_perm xs).mem_iff.mp hy))
    · intro y hy
      exact hxs.1 y ((rankResults_perm xs).mem_iff.mp hy)

theorem parseBatchAux_length (i : ℕ) (l : List RawItem) :
    (parseBatchAux i l).1.length + (parseBatchAux i l).2.length = l.length := by
  induction l generalizing i with
  | nil => simp [parseBatchAux]
  | cons a rest ih =>
    have h := ih (i + 1)
    cases hpa : parseApproximation a with
    | ok p =>
      simp only [parseBatchAux, hpa, parseStep, List.length_cons]
      omega
    | error m =>
      simp only [parseBatchAux, hpa, parseStep, List.length_cons]
      omega

theorem evalItems_length (l : List ParsedItem) :
    (evalItems l).1.length + (evalItems l).2.length = l.length := by
  induction l with
  | nil => rfl
  | cons p rest ih =>
    cases hper : perItemResult p with
    | ok r =>
      simp only [evalItems, hper, evalStep, List.length_cons]
      omega
    | error e =>
      simp only [evalItems, hper, evalStep, List.length_cons]
      omega

theorem parseBatchAux_mem (l : List RawItem) (i : ℕ) :
    ∀ (k : ℕ) (it : RawItem), l[k]? = some it →
      (∀ m : String, parseApproximation it = .error m →
        (⟨((i + k : ℕ) : ℤ),
          some (if truthy it.expression then jsToString it.expression else "missing"),
          m⟩ : ErrEntry) ∈ (parseBatchAux i l).2) ∧
      (∀ p : ParsedCore, parseApproximation it = .ok p →
        (⟨i + k, p.expression, p.targetValue, p.targetName, p.description⟩ : ParsedItem)
          ∈ (parseBatchAux i l).1) := by
  induction l generalizing i with
  | nil =>
    intro k it h
    simp at h
  | cons a rest ih =>
    intro k it h
    cases k with
    | zero =>
      rw [List.getElem?_cons_zero] at h
      cases h
      constructor
      · intro m hm
        simp only [parseBatchAux, hm, parseStep, Nat.add_zero]
        exact List.mem_cons_self _ _
      · intro p hp
        simp only [parseBatchAux, hp, parseStep, Nat.add_zero]
        exact List.mem_cons_self _ _
    | succ k2 =>
      rw [List.getElem?_cons_succ] at h
      have hrec := ih (i + 1) k2 it h
      have harith : (i + 1 + k2 : ℕ) = (i + (k2 + 1) : ℕ) := by omega
      rw [harith] at hrec
      constructor
      · intro m hm
        have h1 := hrec.1 m hm
        cases hpa : parseApproximation a with
        | ok p2 =>
          simp only [parseBatchAux, hpa, parseStep]
          exact h1
        | error m2 =>
          simp only [parseBatchAux, hpa, parseStep]
          exact List.mem_cons_of_mem _ h1
      · intro p hp
        have h1 := hrec.2 p hp
        cases hpa : parseApproximation a with
        | ok p2 =>
          simp only [parseBatchAux, hpa, parseStep]
          exact List.mem_cons_of_mem _ h1
        | error m2 =>
          simp only [parseBatchAux, hpa, parseStep]
          exact h1

theorem evalItems_mem {l : List ParsedItem} {p : ParsedItem} (hp : p ∈ l) :
    (∀ e : ErrEntry, perItemResult p = .error e → e ∈ (evalItems l).2) ∧
    (∀ r : ResultEntry, perItemResult p = .ok r → r ∈ (evalItems l).1) := by
  induction l with
  | nil => exact absurd hp (by simp)
  | cons q rest ih =>
    rcases List.mem_cons.mp hp with rfl | hp2
    · constructor
      · intro e he
        simp only [evalItems, he, evalStep]
        exact List.mem_cons_self _ _
      · intro r hr
        simp only [evalItems, hr, evalStep]
        exact List.mem_cons_self _ _
    · have hrec := ih hp2
      constructor
      · intro e he
        have h1 := hrec.1 e he
        cases hq : perItemResult q with
        | ok r2 =>
          simp only [evalItems, hq, evalStep]
          exact h1
        | error e2 =>
          simp only [evalItems, hq, evalStep]
          exact List.mem_cons_of_mem _ h1
      · intro r hr
        have h1 := hrec.2 r hr
        cases hq : perItemResult q with
        | ok r2 =>
          simp only [evalItems, hq, evalStep]
          exact List.mem_cons_of_mem _ h1
        | error e2 =>
          simp only [evalItems, hq, evalStep]
          exact h1

theorem truthy_jsOr (a b : JSValue) : truthy (jsOr a b) = (truthy a || truthy b) := by
  unfold jsOr
  cases h : truthy a <;> simp [h]

set_option maxHeartbeats 1000000000 in
/-- Claim C2, counterexample: the evaluator does not succeed exactly on the
specification's fixed function set.  A bare ln(2) fails with an
unknown-function error (the arithmetic core has no function named ln; only
the mp.ln( spelling is rewritten to log( by the cleanup), while abs(2),
whose name is outside the listed set, evaluates successfully. -/
theorem c2_counterexample_ln_fails_abs_succeeds :
    evaluateExpression "ln(2)" [] = .error (.unknownFunction "ln") ∧
    evaluateExpression "abs(2)" [] = .ok (Dec.num 2) := by
  exact ⟨by decide, by decide⟩

set_option maxHeartbeats 1000000000 in
/-- Claim C2, amended: the arithmetic core recognizes sqrt, log, exp, sin,
cos, tan, asin, acos, atan, sinh, cosh and tanh (each evaluates successfully
on a valid argument), but there is no function named ln — mp.ln( is
rewritten to log( and evaluates exactly like log( — and names outside the
listed set are not necessarily failures, since the core's namespace is
wider (for example abs). -/
theorem c2_supported_functions_amended :
    ("sqrt" ∈ mathjsFunctions ∧ "log" ∈ mathjsFunctions ∧ "exp" ∈ mathjsFunctions ∧
      "sin" ∈ mathjsFunctions ∧ "cos" ∈ mathjsFunctions ∧ "tan" ∈ mathjsFunctions ∧
      "asin" ∈ mathjsFunctions ∧ "acos" ∈ mathjsFunctions ∧ "atan" ∈ mathjsFunctions ∧
      "sinh" ∈ mathjsFunctions ∧ "cosh" ∈ mathjsFunctions ∧ "tanh" ∈ mathjsFunctions) ∧
    "ln" ∉ mathjsFunctions ∧
    evaluateExpression "mp.ln(2)" [] = evaluateExpression "log(2)" [] ∧
    (evaluateExpression "sqrt(4)" [] = .ok (Dec.num 2) ∧
      evaluateExpression "log(1)" [] = .ok (Dec.num 0) ∧
      evaluateExpression "exp(0)" [] = .ok (Dec.num 1) ∧
      evaluateExpression "sin(0)" [] = .ok (Dec.num 0) ∧
      evaluateExpression "cos(0)" [] = .ok (Dec.num 1) ∧
      evaluateExpression "tan(0)" [] = .ok (Dec.num 0) ∧
      evaluateExpression "asin(0)" [] = .ok (Dec.num 0) ∧
      evaluateExpression "acos(1)" [] = .ok (Dec.num 0) ∧
      evaluateExpression "atan(0)" [] = .ok (Dec.num 0) ∧
      evaluateExpression "sinh(0)" [] = .ok (Dec.num 0) ∧
      evaluateExpression "cosh(0)" [] = .ok (Dec.num 1) ∧
      evaluateExpression "tanh(0)" [] = .ok (Dec.num 0)) := by
  refine ⟨by decide, by decide, by decide, ?_⟩
  refine ⟨by decide, by decide, by decide, by decide, by decide, by decide, by decide,
    by decide, by decide, by decide, by decide, by decide⟩

set_option maxHeartbeats 1000000000 in
/-- Claim C3, counterexample: a custom constant named pi with value 3 does
not take precedence: the substituted text for the expression pi is the
built-in 100-digit pi literal, not 3. -/
theorem c3_counterexample_builtin_pi_wins :
    normalizeExpression "pi" [("pi", "3")] = piStr.data ∧ piStr.data ≠ "3".data := by
  exact ⟨by decide, by decide⟩

set_option maxHeartbeats 1000000000 in
/-- Claim C3, amended: constant substitution is whole-word (phi never
matches inside alphabet, whatever the custom replacement value), but the
built-in constants are substituted before the caller's custom constants, so
a custom constant sharing a built-in name is never used; custom constants
take effect only for names that are not built-ins (a custom tau is
substituted). -/
theorem c3_substitution_amended :
    (∀ v : String, normalizeExpression "alphabet" [("phi", v)] = "alphabet".data) ∧
    (∀ v : String, normalizeExpression "pi" [("pi", v)] = piStr.data) ∧
    normalizeExpression "tau" [("tau", "6.28")] = "6.28".data := by
  refine ⟨fun v => rfl, fun v => rfl, by decide⟩

set_option maxHeartbeats 1000000000 in
/-- Claim C4, counterexample: the complexity formula does not count the
hyperbolic functions: for sinh(1) the source computes 12 (sinh matches no
alternative of the source regex), while the claim's formula over the full
function set gives 15. -/
theorem c4_counterexample_sinh_not_counted :
    calculateComplexity "sinh(1)" = 12 ∧ specComplexityFullFunctions "sinh(1)" = 15 := by
  exact ⟨by decide, by decide⟩

set_option maxHeartbeats 1000000000 in
/-- Claim C4, amended: complexity is the expression length plus twice the
operator-character count plus three times the whole-word function-name count
over the ten-name alternation sqrt, log, ln, exp, sin, cos, tan, asin, acos,
atan — sinh, cosh and tanh are absent from the source regex — plus the
constant-name count plus the numeric-literal count; on hyperbolic-free
expressions the claim's formula agrees with the source. -/
theorem c4_complexity_amended :
    (∀ e : String, calculateComplexity e =
      e.length + (e.data.filter isOperatorChar).length * 2
        + countWord complexityFunctionNames e.data * 3
        + countWord complexityConstantNames e.data + countNumbers e.data) ∧
    ("sinh".data ∉ complexityFunctionNames ∧ "cosh".data ∉ complexityFunctionNames ∧
      "tanh".data ∉ complexityFunctionNames) ∧
    ("sinh".data ∈ specFullFunctionNames ∧ "cosh".data ∈ specFullFunctionNames ∧
      "tanh".data ∈ specFullFunctionNames) ∧
    (calculateComplexity "cosh(1)" = 12 ∧ calculateComplexity "tanh(1)" = 12 ∧
      calculateComplexity "sin(1)" = 14 ∧ specComplexityFullFunctions "sin(1)" = 14) := by
  refine ⟨fun e => rfl, by decide, by decide, by decide⟩

/-- Claim C8: a non-array batch payload short-circuits: parseBatch returns
no parsed items and exactly one error entry with index -1 (and the route
additionally answers with its 400 error before any per-item processing). -/
theorem c8_nonarray_shortcircuits :
    parseBatch BatchInput.notArray = ⟨[], [⟨-1, none, "Input must be an array"⟩]⟩ ∧
    evaluateBatchRoute BatchInput.notArray = .error "approximations must be an array" := by
  exact ⟨rfl, rfl⟩

/-- Claim C9: a required field that is present but falsy is classified as a
missing-field error, because extraction selects the first truthy value among
the alternative names: the number 0 and the empty string are falsy, an item
whose expression candidates are all falsy is rejected with the
missing-expression error, and an item with a truthy expression whose target
candidates are all falsy is rejected with the missing-target error, without
evaluation. -/
theorem c9_falsy_field_is_missing :
    truthy (JSValue.num 0) = false ∧
    truthy (JSValue.str "") = false ∧
    (∀ a : RawItem, truthy a.expression = false → truthy a.expr = false →
      truthy a.formula = false →
      parseApproximation a =
        .error "Missing expression field (tried: expression, expr, formula)") ∧
    (∀ a : RawItem, truthy (jsOr (jsOr a.expression a.expr) a.formula) = true →
      truthy a.value = false → truthy a.target = false → truthy a.computed = false →
      truthy a.result = false →
      parseApproximation a =
        .error "Missing target value field (tried: value, target, computed, result)") := by
  refine ⟨rfl, rfl, ?_, ?_⟩
  · intro a h1 h2 h3
    simp [parseApproximation, truthy_jsOr, h1, h2, h3]
  · intro a hE h1 h2 h3 h4
    simp only [truthy_jsOr] at hE
    simp [parseApproximation, truthy_jsOr, hE, h1, h2, h3, h4]

set_option maxHeartbeats 1000000000 in
/-- Claim C9, witness: a target given as the number 0 (with the expression
under the alternative name expr) is rejected as a missing target value. -/
theorem c9_falsy_field_witness :
    parseApproximation { expr := JSValue.str "22/7", value := JSValue.num 0 } =
      .error "Missing target value field (tried: value, target, computed, result)" :=
  c9_falsy_field_is_missing.2.2.2 _ (by decide) (by decide) (by decide) (by decide) (by decide)

set_option maxHeartbeats 1000000000 in
/-- Claim C10: evaluation lowercases the whole expression and strips
mpmath-style prefixes before constant substitution: mp.pi evaluates exactly
as pi and MP.SQRT(2) exactly as sqrt(2) under every custom constant map, and
both mp.ln( and mp.log( are rewritten to the natural-log call log(, so the
two evaluate identically. -/
theorem c10_mpmath_normalization :
    (∀ c : List (String × String), evaluateExpression "mp.pi" c = evaluateExpression "pi" c) ∧
    (∀ c : List (String × String),
      evaluateExpression "MP.SQRT(2)" c = evaluateExpression "sqrt(2)" c) ∧
    applyReplacements mpCleanup ("mp.ln(2)".data.map asciiLower) = "log(2)".data ∧
    applyReplacements mpCleanup ("mp.log(2)".data.map asciiLower) = "log(2)".data ∧
    (∀ c : List (String × String),
      evaluateExpression "mp.ln(2)" c = evaluateExpression "mp.log(2)" c) := by
  refine ⟨fun c => rfl, fun c => rfl, by decide, by decide, fun c => rfl⟩

theorem parseBatchAux_cons (i : ℕ) (a : RawItem) (rest : List RawItem) :
    parseBatchAux i (a :: rest) =
      parseStep i a (parseApproximation a) (parseBatchAux (i + 1) rest) := rfl

theorem evalItems_cons (p : ParsedItem) (rest : List ParsedItem) :
    evalItems (p :: rest) = evalStep (perItemResult p) (evalItems rest) := rfl

/-- Claim C5: for a positive absolute error q the accuracy digits equal the
floor of the negated base-10 logarithm of q — characterized exactly by the
power bounds 10 to the (-d - 1) < q and q at most 10 to the (-d) — clamped
to the range 0..50, and a zero absolute error yields exactly the precision
limit 50 without any logarithm being taken. -/
theorem c5_accuracy_floor_log10 :
    (∀ q : ℚ, 0 < q → ∃ d : ℤ,
        ((10 : ℚ) ^ (-d - 1) < q ∧ q ≤ (10 : ℚ) ^ (-d)) ∧
        calculateAccuracy (Dec.num q) = Dec.num ((max 0 (min 50 d) : ℤ) : ℚ)) ∧
    calculateAccuracy (Dec.num 0) = Dec.num 50 := by
  constructor
  · intro q hq
    refine ⟨-(Int.clog 10 q), ⟨?_, ?_⟩, ?_⟩
    · have h := Int.zpow_pred_clog_lt_self (b := 10) (R := ℚ) (by norm_num) hq
      have he : (-(-(Int.clog 10 q)) - 1 : ℤ) = Int.clog 10 q - 1 := by ring
      rw [he]
      simpa using h
    · have h := Int.self_le_zpow_clog (b := 10) (R := ℚ) (by norm_num) q
      simpa using h
    · simp only [calculateAccuracy]
      rw [if_neg (ne_of_gt hq), if_neg (not_lt.mpr (le_of_lt hq))]
  · rfl

/-- Claim C5, witness: at the absolute error 1/1000 the accuracy-digit count
is the floor of the negated logarithm, clamped. -/
theorem c5_accuracy_witness :
    ∃ d : ℤ,
      (((10 : ℚ) ^ (-d - 1) < 1/1000 ∧ (1/1000 : ℚ) ≤ (10 : ℚ) ^ (-d)) ∧
        calculateAccuracy (Dec.num (1/1000)) = Dec.num ((max 0 (min 50 d) : ℤ) : ℚ)) :=
  c5_accuracy_floor_log10.1 (1/1000) (by norm_num)

/-- Claim C6: the ranking step returns a permutation of the scored items; on
finite scores and distinct increasing submission indices the output is
pairwise ordered by descending overall score with exactly-equal scores kept
in submission order; and the specification's example with scores 10, 50, 50,
5 ranks as items 2, 3, 1, 4. -/
theorem c6_ranking_sorted_stable :
    (∀ l : List ResultEntry, (rankResults l).Perm l) ∧
    (∀ l : List ResultEntry,
      (∀ y ∈ l, y.quality.score.isFinite = true) →
      l.Pairwise (fun a b => a.index < b.index) →
      (rankResults l).Pairwise RankedOrder) ∧
    (rankResults [exampleScored 1 10, exampleScored 2 50, exampleScored 3 50,
        exampleScored 4 5]).map (fun r => r.index) = [2, 3, 1, 4] := by
  refine ⟨rankResults_perm, ?_, by decide⟩
  intro l hf hidx
  exact rankResults_pairwise hf hidx

/-- Claim C6, witness: the ranked example list is pairwise in ranked order. -/
theorem c6_ranking_witness :
    (rankResults [exampleScored 1 10, exampleScored 2 50, exampleScored 3 50,
        exampleScored 4 5]).Pairwise RankedOrder :=
  c6_ranking_sorted_stable.2.1 _ (by decide) (by decide)

/-- An explicit three-item batch whose middle item has a malformed
expression, for the batch-isolation example of the specification. -/
def demoBatch : List RawItem :=
  [{ expression := JSValue.str "22/7", target := JSValue.str "3.141592653589793" },
   { expression := JSValue.str "(", target := JSValue.str "2" },
   { expression := JSValue.str "1", target := JSValue.str "2" }]

/-- Claim C7: the batch driver loses no item — the ranked results and the
error list together account for every submitted item — and for each index k,
a parse failure of item k is recorded in the errors with index k and the raw
expression field or the placeholder missing, while for a parsed item an
evaluation or scoring failure is recorded in the errors and a success
appears in the ranked results with index k; no per-item failure aborts the
others. -/
theorem c7_batch_isolation (items : List RawItem) :
    (evaluateBatch items).results.length + (evaluateBatch items).errors.length = items.length ∧
    ∀ (k : ℕ) (it : RawItem), items[k]? = some it →
      (∀ m : String, parseApproximation it = .error m →
        (⟨(k : ℤ),
          some (if truthy it.expression then jsToString it.expression else "missing"),
          m⟩ : ErrEntry) ∈ (evaluateBatch items).errors) ∧
      (∀ p : ParsedCore, parseApproximation it = .ok p →
        (∀ e : ErrEntry,
          perItemResult ⟨k, p.expression, p.targetValue, p.targetName, p.description⟩ = .error e →
          e ∈ (evaluateBatch items).errors) ∧
        (∀ r : ResultEntry,
          perItemResult ⟨k, p.expression, p.targetValue, p.targetName, p.description⟩ = .ok r →
          r ∈ (evaluateBatch items).results)) := by
  have hresults : (evaluateBatch items).results
      = rankResults (evalItems (parseBatchAux 0 items).1).1 := rfl
  have herrors : (evaluateBatch items).errors
      = (parseBatchAux 0 items).2 ++ (evalItems (parseBatchAux 0 items).1).2 := rfl
  constructor
  · have h1 := (rankResults_perm (evalItems (parseBatchAux 0 items).1).1).length_eq
    have h2 := evalItems_length (parseBatchAux 0 items).1
    have h3 := parseBatchAux_length 0 items
    rw [hresults, herrors]
    simp only [List.length_append]
    omega
  · intro k it hk
    have hmem := parseBatchAux_mem items 0 k it hk
    constructor
    · intro m hm
      have h1 := hmem.1 m hm
      rw [herrors]
      apply List.mem_append_left
      simpa using h1
    · intro p hp
      have h2 := hmem.2 p hp
      have hp2 : (⟨k, p.expression, p.targetValue, p.targetName, p.description⟩ : ParsedItem)
          ∈ (parseBatchAux 0 items).1 := by simpa using h2
      have hev := evalItems_mem hp2
      constructor
      · intro e he
        rw [herrors]
        exact List.mem_append_right _ (hev.1 e he)
      · intro r hr
        rw [hresults]
        exact ((rankResults_perm _).mem_iff).mpr (hev.2 r hr)

set_option maxHeartbeats 1000000000 in
/-- Claim C7, witness: in the three-item example batch whose middle item is
the malformed expression (, that item's parse-error entry is recorded in the
batch errors at index 1. -/
theorem c7_batch_isolation_witness :
    (⟨(1 : ℤ), some "(", errMessage EvalErr.parseError⟩ : ErrEntry)
      ∈ (evaluateBatch demoBatch).errors := by
  have h := (c7_batch_isolation demoBatch).2 1
    { expression := JSValue.str "(", target := JSValue.str "2" } (by decide)
  exact (h.2 ⟨"(", "2", "unknown", ""⟩ (by decide)).1 _ (by decide)

set_option maxHeartbeats 1000000000 in
/-- Claim C1, counterexample: the batch item with expression 1 and target 0
is not recorded as a division-by-zero scoring error: the errors list is
empty and the item appears in the ranked results carrying an infinite
relativeError. -/
theorem c1_counterexample_zero_target_ranked :
    (evaluateBatch [{ expression := JSValue.str "1", target := JSValue.str "0" }]).errors = [] ∧
    (evaluateBatch [{ expression := JSValue.str "1", target := JSValue.str "0" }]).results.map
      (fun r => r.quality.relativeError) = [Dec.posInf] := by
  exact ⟨by decide, by decide⟩

/-- Claim C1, amended: a successfully evaluated item with a zero target is
not a scoring failure: the Decimal division of the absolute error by zero
yields Infinity, the scorer returns a quality record whose relativeError is
Infinity, and the item is ranked normally with no entry in the errors list. -/
theorem c1_zero_target_is_scored (e t : String) (v : ℚ)
    (hv : v ≠ 0) (he : e ≠ "") (ht : t ≠ "")
    (heval : evaluateExpression e [] = .ok (Dec.num v))
    (htgt : parseDecString t = some (Dec.num 0)) :
    (∃ q : Quality, calculateApproximationQuality (Dec.num v) t e = .ok q ∧
        q.relativeError = Dec.posInf) ∧
    (evaluateBatch [{ expression := JSValue.str e, target := JSValue.str t }]).errors = [] ∧
    (evaluateBatch [{ expression := JSValue.str e, target := JSValue.str t }]).results.map
      (fun r => (r.index, r.quality.relativeError)) = [(0, Dec.posInf)] := by
  have hee : e.isEmpty = false :=
    Bool.eq_false_iff.mpr (fun hc => he ((String.isEmpty_iff e).mp hc))
  have htt : t.isEmpty = false :=
    Bool.eq_false_iff.mpr (fun hc => ht ((String.isEmpty_iff t).mp hc))
  have hsub : (Dec.sub (Dec.num v) (Dec.num 0)).abs = Dec.num |v| := by
    simp [Dec.sub, Dec.add, Dec.neg, Dec.abs]
  have habs0 : (Dec.num 0).abs = Dec.num 0 := by
    simp [Dec.abs]
  have hdiv : Dec.div (Dec.num |v|) (Dec.num 0) = Dec.posInf := by
    simp [Dec.div, abs_eq_zero, hv, abs_pos.mpr hv]
  have hq1 : calculateApproximationQuality (Dec.num v) t e =
      .ok ⟨Dec.num |v|, Dec.posInf, calculateComplexity e,
        Dec.mul (Dec.num |v|)
          (Dec.add (Dec.num 1) (Dec.mul (Dec.num (1 / 100)) (Dec.num (calculateComplexity e)))),
        calculateAccuracy (Dec.num |v|),
        calculateOverallScore (Dec.num |v|) (calculateComplexity e)⟩ := by
    simp only [calculateApproximationQuality, htgt]
    rw [hsub, habs0, hdiv]
  have hpa : parseApproximation { expression := JSValue.str e, target := JSValue.str t } =
      .ok ⟨e, t, "unknown", ""⟩ := by
    simp [parseApproximation, jsOr, truthy, hee, htt, jsToString]
  have hper : perItemResult ⟨0, e, t, "unknown", ""⟩ =
      .ok ⟨0, e, t, "unknown", "", Dec.num v,
        ⟨Dec.num |v|, Dec.posInf, calculateComplexity e,
          Dec.mul (Dec.num |v|)
            (Dec.add (Dec.num 1) (Dec.mul (Dec.num (1 / 100)) (Dec.num (calculateComplexity e)))),
          calculateAccuracy (Dec.num |v|),
          calculateOverallScore (Dec.num |v|) (calculateComplexity e)⟩⟩ := by
    have hopen : perItemResult ⟨0, e, t, "unknown", ""⟩ =
        evalOutcomeStep ⟨0, e, t, "unknown", ""⟩ (evaluateExpression e []) := rfl
    rw [hopen, heval]
    simp only [evalOutcomeStep, hq1, scoreStep]
  have hbatch1 : parseBatchAux 0 [{ expression := JSValue.str e, target := JSValue.str t }] =
      ([⟨0, e, t, "unknown", ""⟩], []) := by
    rw [parseBatchAux_cons, hpa]
    simp only [parseStep]
    rfl
  refine ⟨⟨_, hq1, rfl⟩, ?_, ?_⟩
  · show (parseBatchAux 0 _).2 ++ (evalItems (parseBatchAux 0 _).1).2 = []
    rw [hbatch1]
    rw [evalItems_cons, hper]
    simp only [evalStep]
    rfl
  · show (rankResults (evalItems (parseBatchAux 0 _).1).1).map _ = _
    rw [hbatch1]
    rw [evalItems_cons, hper]
    simp only [evalStep]
    rfl

set_option maxHeartbeats 1000000000 in
/-- Claim C1, witness: the expression 1 with target 0 is scored with an
infinite relativeError and ranked, with no recorded error. -/
theorem c1_zero_target_witness :
    (∃ q : Quality, calculateApproximationQuality (Dec.num 1) "0" "1" = .ok q ∧
        q.relativeError = Dec.posInf) ∧
    (evaluateBatch [{ expression := JSValue.str "1", target := JSValue.str "0" }]).errors = [] ∧
    (evaluateBatch [{ expression := JSValue.str "1", target := JSValue.str "0" }]).results.map
      (fun r => (r.index, r.quality.relativeError)) = [(0, Dec.posInf)] :=
  c1_zero_target_is_scored "1" "0" 1 (by norm_num) (by decide) (by decide) (by decide) (by decide)
